import Mathlib

/-!
Shallow embedding of `simple_bot.py` (Telegram file bot): the progress
tracker, the storage gateway wrappers, the in-memory metadata store, the
upload pipeline `handle_file`, and the size formatter.  Machine reals are
modelled by `ℚ` (wall-clock times, rates, percentages) and Python `int`
by `ℤ`.  Python operations that can raise are modelled with `Option` /
`Except`; external effects (the S3 client, `message.download`) are
modelled by explicit outcome parameters.
-/

/-- Python `a / b` on numbers: raises `ZeroDivisionError` when `b = 0`,
modelled as `none`. -/
def pyDiv (a b : ℚ) : Option ℚ :=
  if b = 0 then none else some (a / b)

/-- Python `int(x)` on a float: truncation toward zero. -/
def pyTrunc (q : ℚ) : ℤ :=
  if 0 ≤ q then ⌊q⌋ else ⌈q⌉

/-- Python `a % b` on floats (result has the sign of `b`; used only with
`b = 60` here): `a - b * floor (a / b)`. -/
def pyFloatMod (a b : ℚ) : ℚ :=
  a - b * ⌊a / b⌋

/-- Lines 204-207 of `simple_bot.py`: the ETA rendering inside
`ProgressTracker.__call__`.
`if eta < 60: f"{int(eta)}s" else: f"{int(eta/60)}m {int(eta%60)}s"`. -/
def etaTextOfEta (eta : ℚ) : String :=
  if eta < 60 then
    toString (pyTrunc eta) ++ "s"
  else
    toString (pyTrunc (eta / 60)) ++ "m " ++ toString (pyTrunc (pyFloatMod eta 60)) ++ "s"

/-- State of `ProgressTracker` (lines 178-184).  The `status_msg` and
`file_name` fields are the notification sink and a display string; they do
not influence the tracked quantities and are omitted. -/
structure ProgressTracker where
  total_size : ℤ
  bytes_transferred : ℤ
  start_time : ℚ
  last_update_time : ℚ
  deriving DecidableEq, Repr

/-- `ProgressTracker.__init__(total_size, ...)` at wall-clock time `now`:
`bytes_transferred = 0`, `start_time = time.time()`, `last_update_time = 0`. -/
def ProgressTracker.init (total_size : ℤ) (now : ℚ) : ProgressTracker :=
  { total_size := total_size
    bytes_transferred := 0
    start_time := now
    last_update_time := 0 }

/-- The data carried by one emitted status-message update (the
`edit_text` call at lines 215-222): percentage, speed in MB/s, and the
rendered ETA. -/
structure Emission where
  percentage : ℚ
  speed : ℚ
  eta_text : String
  deriving DecidableEq, Repr

/-- `ProgressTracker.__call__(bytes_amount)` (lines 186-224) at wall-clock
time `current_time`.  Returns `none` when Python would raise
(`ZeroDivisionError` on `bytes_transferred / total_size` with
`total_size = 0`), otherwise the updated tracker together with the
emission made on this tick, if any. -/
def progressCall (s : ProgressTracker) (bytes_amount : ℤ) (current_time : ℚ) :
    Option (ProgressTracker × Option Emission) :=
  let bt := s.bytes_transferred + bytes_amount
  if current_time - s.last_update_time > 2 ∨ bt ≥ s.total_size then
    match pyDiv (bt : ℚ) (s.total_size : ℚ) with
    | none => none
    | some d =>
      let percentage := d * 100
      let elapsed := current_time - s.start_time
      let speed := if elapsed > 0 then (bt : ℚ) / elapsed / 1024 / 1024 else 0
      let etat :=
        if elapsed > 0 then
          if bt > 0 then
            etaTextOfEta (((s.total_size : ℚ) - (bt : ℚ)) / ((bt : ℚ) / elapsed))
          else "--:--"
        else "--:--"
      some ({ s with bytes_transferred := bt, last_update_time := current_time },
            some { percentage := percentage, speed := speed, eta_text := etat })
  else
    some ({ s with bytes_transferred := bt }, none)

/-- Feed a sequence of `(bytes_amount, current_time)` ticks to a tracker,
remembering the most recent emission; `none` if some tick raised. -/
def runCalls : ProgressTracker → List (ℤ × ℚ) → Option Emission →
    Option (ProgressTracker × Option Emission)
  | s, [], last => some (s, last)
  | s, (b, t) :: rest, last =>
    match progressCall s b t with
    | none => none
    | some (s', e) =>
      match e with
      | some em => runCalls s' rest (some em)
      | none => runCalls s' rest last

/-- The emission produced by a call result (none if the call raised or
stayed silent). -/
def emissionOf (r : Option (ProgressTracker × Option Emission)) : Option Emission :=
  match r with
  | some (_, e) => e
  | none => none

/-- The percentage of the last emission of a run. -/
def finalPercentage (r : Option (ProgressTracker × Option Emission)) : Option ℚ :=
  (emissionOf r).map Emission.percentage

/-- The tracker's transferred-byte count after a run. -/
def finalBytes (r : Option (ProgressTracker × Option Emission)) : Option ℤ :=
  r.map (fun p => p.1.bytes_transferred)

/-- Outcome of the boto3 `s3_client.upload_file` call inside
`WasabiStorage.upload_file`: the transfer succeeds, raises a
`ClientError`, or raises some other exception. -/
inductive S3Outcome where
  | ok
  | clientError
  | otherError
  deriving DecidableEq, Repr

/-- `WasabiStorage.upload_file` (lines 97-110): returns `True` on success;
`except ClientError` catches exactly the `ClientError` case and returns
`False`; any other exception propagates (`Except.error`). -/
def upload_file (outcome : S3Outcome) : Except Unit Bool :=
  match outcome with
  | .ok => .ok true
  | .clientError => .ok false
  | .otherError => .error ()

/-- The user-facing reply `handle_file` finishes with: the size rejection
(line 351), the success edit (line 406), the upload-failed edit (line 413)
or the generic error edit in the `except` clause (line 415). -/
inductive ReplyKind where
  | tooLarge
  | success
  | uploadFailed
  | errorMsg
  deriving DecidableEq, Repr

/-- Observable outcome of one `handle_file` invocation:
whether the scratch file (`tempfile.NamedTemporaryFile(delete=False)`)
was created on disk, whether it still exists after the `finally` clause,
whether `db.save_file` persisted a record, and the reply kind. -/
structure PipeResult where
  scratchCreated : Bool
  scratchExists : Bool
  savedRecord : Bool
  reply : ReplyKind
  deriving DecidableEq, Repr

/-- `handle_file` (lines 336-419), parameterised by the declared
`file_size`, whether `message.download` raises (staging I/O failure), and
the S3 outcome of the upload.  Path by path:
* `file_size > 4 * 1024 * 1024 * 1024` (line 350): reply and return before
  the `tempfile` block — no scratch file is created;
* the `with tempfile.NamedTemporaryFile(delete=False)` block creates the
  scratch file immediately; `temp_path` is assigned only *after*
  `message.download(temp_file.name)` returns (lines 362-364), so when the
  download raises, the `except` clause replies with the error and the
  `finally` clause (lines 417-419) sees `temp_path = None` and does not
  unlink — the scratch file stays on disk;
* otherwise `temp_path` is set, `storage.upload_file` runs, and whichever
  way it ends (True / False / exception) the `finally` clause unlinks the
  scratch file; `db.save_file` runs only in the `success` branch
  (lines 374-391). -/
def handle_file (file_size : ℤ) (downloadRaises : Bool) (s3 : S3Outcome) : PipeResult :=
  if file_size > 4 * 1024 * 1024 * 1024 then
    { scratchCreated := false, scratchExists := false, savedRecord := false,
      reply := .tooLarge }
  else if downloadRaises then
    { scratchCreated := true, scratchExists := true, savedRecord := false,
      reply := .errorMsg }
  else
    match upload_file s3 with
    | .error _ =>
      { scratchCreated := true, scratchExists := false, savedRecord := false,
        reply := .errorMsg }
    | .ok true =>
      { scratchCreated := true, scratchExists := false, savedRecord := true,
        reply := .success }
    | .ok false =>
      { scratchCreated := true, scratchExists := false, savedRecord := false,
        reply := .uploadFailed }

/-- One value of the `Database.files` dict: only the fields
`list_user_files` inspects are kept.  `uploader_id` is `Option`al because
the code reads it with `file_data.get("uploader_id")`. -/
structure FileData where
  file_id : String
  uploader_id : Option ℤ
  deriving DecidableEq, Repr

/-- The loop of `Database.list_user_files` (lines 163-168): iterate the
stored records in insertion order, append each record whose
`uploader_id` equals `user_id`, and `break` as soon as
`len(user_files) >= limit`. -/
def listGo (user_id : ℤ) (limit : ℤ) : List FileData → List FileData → List FileData
  | [], user_files => user_files
  | f :: rest, user_files =>
    if f.uploader_id = some user_id then
      let user_files2 := user_files ++ [f]
      if (user_files2.length : ℤ) ≥ limit then user_files2
      else listGo user_id limit rest user_files2
    else listGo user_id limit rest user_files

/-- `Database.list_user_files(user_id, limit)` (lines 161-169) over the
dict's values in insertion order. -/
def list_user_files (files : List FileData) (user_id : ℤ) (limit : ℤ) : List FileData :=
  listGo user_id limit files []

/-- The S3 client's `generate_presigned_url`, as `WasabiStorage` sees it:
for each `(object_key, expiration)` either a URL or a `ClientError`. -/
structure WasabiStorageModel where
  s3_generate : String → ℕ → Except Unit String

/-- `WasabiStorage.generate_presigned_url` (lines 112-123): returns the
URL, or `None` when the client raises `ClientError`. -/
def generate_presigned_url (w : WasabiStorageModel) (object_key : String)
    (expiration : ℕ) : Option String :=
  match w.s3_generate object_key expiration with
  | .ok url => some url
  | .error _ => none

/-- `WasabiStorage.get_mx_player_url` (lines 125-130): builds the intent
URL from a 24h presigned URL when that URL is truthy (Python: not `None`
and not the empty string), else returns `None`. -/
def get_mx_player_url (w : WasabiStorageModel) (object_key : String)
    (file_name : String) : Option String :=
  let download_url := generate_presigned_url w object_key 86400
  match download_url with
  | some u =>
    if u ≠ "" then
      some ("intent://" ++ u ++
        "#Intent;package=com.mxtech.videoplayer.ad;type=video;scheme=https;end")
    else none
  | none => none

/-- A storage model whose client raises `ClientError` on every request. -/
def failStore : WasabiStorageModel :=
  { s3_generate := fun _ _ => .error () }

/-- The `while size >= 1024 and i < len(size_names) - 1` loop of
`format_file_size` (lines 232-236), written with explicit fuel
`4 - i`: the guard `i < 4` lets the body run at most `4 - i` more times,
so the fuelled function takes exactly the same steps as the loop. -/
def sizeLoopAux : ℕ → ℚ → ℕ → ℚ × ℕ
  | 0, size, i => (size, i)
  | fuel + 1, size, i =>
    if 1024 ≤ size ∧ i < 4 then sizeLoopAux fuel (size / 1024) (i + 1)
    else (size, i)

def sizeLoop (size : ℚ) (i : ℕ) : ℚ × ℕ :=
  sizeLoopAux (4 - i) size i

def size_names : List String := ["B", "KB", "MB", "GB", "TB"]

/-- Round half to even at the last kept digit, as Python's `f"{x:.1f}"`
does on exact values: the numerator of tenths. -/
def roundHalfEven (r : ℚ) : ℤ :=
  let f := ⌊r⌋
  let frac := r - f
  if frac < 1 / 2 then f
  else if frac > 1 / 2 then f + 1
  else if f % 2 = 0 then f else f + 1

/-- Python `f"{size:.1f}"` for the nonnegative sizes produced here. -/
def pyFormat1f (q : ℚ) : String :=
  let n := roundHalfEven (q * 10)
  if n < 0 then "-" ++ toString (-n / 10) ++ "." ++ toString (-n % 10)
  else toString (n / 10) ++ "." ++ toString (n % 10)

/-- `format_file_size` (lines 227-237).  Python's `if not size_bytes` is
true for an `int` exactly when it is `0`. -/
def format_file_size (size_bytes : ℤ) : String :=
  if size_bytes = 0 then "0B"
  else
    let p := sizeLoop (size_bytes : ℚ) 0
    pyFormat1f p.1 ++ size_names.getD p.2 ""

/-- The unit the size formatter picks for `size_bytes`. -/
def sizeUnit (size_bytes : ℤ) : String :=
  size_names.getD (sizeLoop (size_bytes : ℚ) 0).2 ""

theorem progressCall_ok (s : ProgressTracker) (b : ℤ) (t : ℚ)
    (h : s.total_size ≠ 0) :
    ∃ s' e, progressCall s b t = some (s', e) ∧
      s'.bytes_transferred = s.bytes_transferred + b ∧
      s'.total_size = s.total_size := by
  have hq : (s.total_size : ℚ) ≠ 0 := Int.cast_ne_zero.mpr h
  simp only [progressCall, pyDiv, if_neg hq]
  by_cases hc : t - s.last_update_time > 2 ∨ s.bytes_transferred + b ≥ s.total_size
  · rw [if_pos hc]
    exact ⟨_, _, rfl, rfl, rfl⟩
  · rw [if_neg hc]
    exact ⟨_, _, rfl, rfl, rfl⟩

theorem runCalls_ok (calls : List (ℤ × ℚ)) :
    ∀ (s : ProgressTracker) (last : Option Emission), s.total_size ≠ 0 →
    ∃ s' e, runCalls s calls last = some (s', e) ∧
      s'.bytes_transferred = s.bytes_transferred + (calls.map Prod.fst).sum ∧
      s'.total_size = s.total_size := by
  induction calls with
  | nil =>
    intro s last h
    exact ⟨s, last, rfl, by simp, rfl⟩
  | cons hd tl ih =>
    intro s last h
    obtain ⟨b, t⟩ := hd
    obtain ⟨s1, e1, heq, hbt, hts⟩ := progressCall_ok s b t h
    have h1 : s1.total_size ≠ 0 := hts ▸ h
    cases e1 with
    | some em =>
      obtain ⟨s', e', heq', hbt', hts'⟩ := ih s1 (some em) h1
      refine ⟨s', e', ?_, ?_, by rw [hts', hts]⟩
      · simp [runCalls, heq, heq']
      · rw [hbt', hbt]
        simp
        ring
    | none =>
      obtain ⟨s', e', heq', hbt', hts'⟩ := ih s1 last h1
      refine ⟨s', e', ?_, ?_, by rw [hts', hts]⟩
      · simp [runCalls, heq, heq']
      · rw [hbt', hbt]
        simp
        ring

theorem runCalls_append (l1 l2 : List (ℤ × ℚ)) :
    ∀ (s : ProgressTracker) (last : Option Emission),
    runCalls s (l1 ++ l2) last =
      match runCalls s l1 last with
      | none => none
      | some (s', l') => runCalls s' l2 l' := by
  induction l1 with
  | nil => intro s last; rfl
  | cons hd tl ih =>
    intro s last
    obtain ⟨b, t⟩ := hd
    simp only [List.cons_append, runCalls]
    cases hpc : progressCall s b t with
    | none => rfl
    | some p =>
      obtain ⟨s1, e1⟩ := p
      cases e1 <;> simp [ih]

theorem progressCall_complete (s : ProgressTracker) (b : ℤ) (t : ℚ)
    (hpos : 0 < s.total_size) (hsum : s.bytes_transferred + b = s.total_size) :
    ∃ s' em, progressCall s b t = some (s', some em) ∧
      em.percentage = 100 ∧ s'.bytes_transferred = s.total_size := by
  have h0 : s.total_size ≠ 0 := ne_of_gt hpos
  have hq : (s.total_size : ℚ) ≠ 0 := Int.cast_ne_zero.mpr h0
  have hcond : t - s.last_update_time > 2 ∨ s.bytes_transferred + b ≥ s.total_size :=
    Or.inr (le_of_eq hsum.symm)
  simp only [progressCall, pyDiv, if_pos hcond, if_neg hq]
  refine ⟨_, _, rfl, ?_, hsum⟩
  show ((s.bytes_transferred + b : ℤ) : ℚ) / (s.total_size : ℚ) * 100 = 100
  rw [hsum, div_self hq, one_mul]

/-- Claim C1 (amended): the progress callback's argument is a per-call
byte increment that `__call__` adds to `bytes_transferred`, so the
internal state is the sum of all arguments so far; for every
`total_size > 0` and any call sequence whose increments sum to exactly
`total_size`, the final call emits and the final emitted percentage is
exactly 100. -/
theorem progress_final_percentage_100
    (total : ℤ) (now : ℚ) (calls : List (ℤ × ℚ)) (b : ℤ) (t : ℚ)
    (hpos : 0 < total)
    (hsum : (calls.map Prod.fst).sum + b = total) :
    finalPercentage (runCalls (ProgressTracker.init total now) (calls ++ [(b, t)]) none)
      = some 100 ∧
    finalBytes (runCalls (ProgressTracker.init total now) (calls ++ [(b, t)]) none)
      = some total := by
  have h0 : (ProgressTracker.init total now).total_size ≠ 0 := ne_of_gt hpos
  obtain ⟨s', e', heq, hbt, hts⟩ := runCalls_ok calls (ProgressTracker.init total now) none h0
  have hbt' : s'.bytes_transferred + b = s'.total_size := by
    rw [hbt, hts]
    show (0 : ℤ) + _ + b = total
    omega
  obtain ⟨s'', em, heq2, hp, hb2⟩ := progressCall_complete s' b t (by rw [hts]; exact hpos) hbt'
  rw [runCalls_append, heq]
  simp [runCalls, heq2, finalPercentage, emissionOf, finalBytes, hp, hb2, hts,
    ProgressTracker.init]

/-- Witness for C1's amended theorem at `total_size = 100` and increments
`30, 30, 40`. -/
theorem progress_final_percentage_100_witness :
    finalPercentage (runCalls (ProgressTracker.init 100 0) ([(30, 0), (30, 1)] ++ [(40, 2)]) none)
      = some 100 ∧
    finalBytes (runCalls (ProgressTracker.init 100 0) ([(30, 0), (30, 1)] ++ [(40, 2)]) none)
      = some 100 :=
  progress_final_percentage_100 100 0 [(30, 0), (30, 1)] 40 2 (by decide) (by decide)

/-- Claim C1 as stated is false: feeding the *cumulative* monotone
sequence 50, 100 for `total_size = 100` (it reaches `total_size`), the
final emitted percentage is 150, not 100, and the tracker's
transferred-byte state ends at 150, not at the last cumulative value. -/
theorem progress_cumulative_counterexample :
    finalPercentage (runCalls (ProgressTracker.init 100 1000) [(50, 1000), (100, 1001)] none)
      = some 150 ∧
    finalBytes (runCalls (ProgressTracker.init 100 1000) [(50, 1000), (100, 1001)] none)
      = some 150 ∧
    (150 : ℚ) ≠ 100 := by
  refine ⟨?_, ?_, by norm_num⟩ <;>
    norm_num [finalPercentage, finalBytes, emissionOf, runCalls, progressCall, pyDiv,
      ProgressTracker.init]

/-- Claim C2: with `total_size = 0` the callback does *not* report 0
without dividing — the completion test `bytes_transferred >= total_size`
always holds, so `(bytes_transferred / total_size) * 100` is evaluated
and raises `ZeroDivisionError` (modelled as `none`). -/
theorem progress_zero_total_size_raises :
    progressCall (ProgressTracker.init 0 1000) 0 1000 = none := by
  norm_num [progressCall, pyDiv, ProgressTracker.init]

/-- Claim C7: `__call__` emits a status update only when at least 2
seconds have passed since the last emission (`last_update_time`) or the
transfer is complete (updated `bytes_transferred >= total_size`); ticks
satisfying neither condition emit nothing. -/
theorem progress_emission_only_if (s : ProgressTracker) (b : ℤ) (t : ℚ)
    (h : (emissionOf (progressCall s b t)).isSome = true) :
    t - s.last_update_time ≥ 2 ∨ s.bytes_transferred + b ≥ s.total_size := by
  by_cases hc : t - s.last_update_time > 2 ∨ s.bytes_transferred + b ≥ s.total_size
  · exact hc.imp le_of_lt id
  · exfalso
    simp only [progressCall, emissionOf] at h
    rw [if_neg hc] at h
    simp at h

/-- Witness for C7 at a completing tick: `total_size = 100`, one call
with 100 bytes at time 2 (only 2 seconds after the last update, so the
time test `> 2` alone would not fire). -/
theorem progress_emission_only_if_witness :
    (2 : ℚ) - (ProgressTracker.init 100 1).last_update_time ≥ 2 ∨
      (ProgressTracker.init 100 1).bytes_transferred + 100 ≥
        (ProgressTracker.init 100 1).total_size :=
  progress_emission_only_if (ProgressTracker.init 100 1) 100 2
    (by norm_num [progressCall, pyDiv, emissionOf, ProgressTracker.init])

theorem pyTrunc_of_nonneg {q : ℚ} (h : 0 ≤ q) : pyTrunc q = ⌊q⌋ :=
  if_pos h

theorem floor_div_sixty (q : ℚ) : ⌊q / 60⌋ = ⌊q⌋ / 60 := by
  rw [Int.floor_eq_iff]
  have hmod := Int.ediv_add_emod ⌊q⌋ 60
  have hge := Int.emod_nonneg ⌊q⌋ (by norm_num : (60 : ℤ) ≠ 0)
  have hlt := Int.emod_lt_of_pos ⌊q⌋ (by norm_num : (0 : ℤ) < 60)
  constructor
  · rw [le_div_iff₀ (by norm_num : (0 : ℚ) < 60)]
    have h1 : (60 : ℤ) * (⌊q⌋ / 60) ≤ ⌊q⌋ := by omega
    have h2 : ((60 * (⌊q⌋ / 60) : ℤ) : ℚ) ≤ (⌊q⌋ : ℚ) := by exact_mod_cast h1
    have h3 := Int.floor_le q
    push_cast at h2
    linarith
  · rw [div_lt_iff₀ (by norm_num : (0 : ℚ) < 60)]
    have h1 : ⌊q⌋ + 1 ≤ 60 * (⌊q⌋ / 60) + 60 := by omega
    have h2 : ((⌊q⌋ + 1 : ℤ) : ℚ) ≤ ((60 * (⌊q⌋ / 60) + 60 : ℤ) : ℚ) := by exact_mod_cast h1
    have h3 := Int.lt_floor_add_one q
    push_cast at h2
    linarith

theorem pyFloatMod_sixty_floor (q : ℚ) : ⌊pyFloatMod q 60⌋ = ⌊q⌋ % 60 := by
  unfold pyFloatMod
  rw [show (60 : ℚ) * (⌊q / 60⌋ : ℚ) = ((60 * ⌊q / 60⌋ : ℤ) : ℚ) by push_cast; ring,
    Int.floor_sub_int, floor_div_sixty]
  omega

theorem pyFloatMod_sixty_nonneg (q : ℚ) : 0 ≤ pyFloatMod q 60 := by
  unfold pyFloatMod
  have h : (⌊q / 60⌋ : ℚ) ≤ q / 60 := Int.floor_le _
  have h2 : (60 : ℚ) * (⌊q / 60⌋ : ℚ) ≤ 60 * (q / 60) :=
    mul_le_mul_of_nonneg_left h (by norm_num)
  have h3 : (60 : ℚ) * (q / 60) = q := by ring
  linarith

/-- Claim C8: ETA values strictly under 60 render as the truncated number
of seconds followed by "s"; all others render as
"(minutes)m (seconds)s" where minutes and seconds come from integer
truncation (floor division and remainder of the truncated ETA by 60), not
rounding; in particular 45 renders "45s" and 125 renders "2m 5s". -/
theorem eta_format_truncation (eta : ℚ) (h : 0 ≤ eta) :
    (eta < 60 → etaTextOfEta eta = toString ⌊eta⌋ ++ "s") ∧
    (60 ≤ eta → etaTextOfEta eta =
      toString (⌊eta⌋ / 60) ++ "m " ++ toString (⌊eta⌋ % 60) ++ "s") ∧
    etaTextOfEta 45 = "45s" ∧ etaTextOfEta 125 = "2m 5s" := by
  refine ⟨?_, ?_, ?_, ?_⟩
  · intro hlt
    unfold etaTextOfEta
    rw [if_pos hlt, pyTrunc_of_nonneg h]
  · intro hge
    unfold etaTextOfEta
    rw [if_neg (not_lt.mpr hge),
      pyTrunc_of_nonneg (div_nonneg h (by norm_num)),
      pyTrunc_of_nonneg (pyFloatMod_sixty_nonneg eta),
      floor_div_sixty, pyFloatMod_sixty_floor]
  · have h45 : ⌊(45 : ℚ)⌋ = 45 := by rw [Int.floor_eq_iff]; norm_num
    unfold etaTextOfEta
    rw [if_pos (by norm_num), pyTrunc_of_nonneg (by norm_num), h45]
    decide
  · have hd : ⌊(125 : ℚ) / 60⌋ = 2 := by rw [Int.floor_eq_iff]; norm_num
    have hm : pyFloatMod 125 60 = 5 := by
      unfold pyFloatMod
      rw [hd]
      norm_num
    unfold etaTextOfEta
    rw [if_neg (by norm_num), pyTrunc_of_nonneg (by norm_num), hd, hm,
      pyTrunc_of_nonneg (by norm_num)]
    have h5 : ⌊(5 : ℚ)⌋ = 5 := by rw [Int.floor_eq_iff]; norm_num
    rw [h5]
    decide

/-- Witness for C8 at `eta = 45` and `eta = 125`. -/
theorem eta_format_truncation_witness :
    etaTextOfEta 45 = "45s" ∧ etaTextOfEta 125 = "2m 5s" :=
  ⟨(eta_format_truncation 45 (by norm_num)).2.2.1,
   (eta_format_truncation 125 (by norm_num)).2.2.2⟩

/-- Claim C3: the cleanup invariant fails on the staging-failure path.
With an allowed size and a download that raises, the scratch file was
created by `tempfile.NamedTemporaryFile(delete=False)` but `temp_path` is
still `None` in the `finally` clause, so the file is left on disk. -/
theorem staging_failure_scratch_leak :
    (handle_file 100 true S3Outcome.ok).scratchCreated = true ∧
    (handle_file 100 true S3Outcome.ok).scratchExists = true := by
  decide

/-- Claim C4: a storage-level failure (`ClientError`) makes
`WasabiStorage.upload_file` return `False` instead of raising, and
whenever `upload_file` returns `False` the pipeline persists no record
(`db.save_file` is only reached in the success branch). -/
theorem upload_false_no_record :
    upload_file S3Outcome.clientError = Except.ok false ∧
    ∀ (fs : ℤ) (dr : Bool) (s3 : S3Outcome),
      upload_file s3 = Except.ok false → (handle_file fs dr s3).savedRecord = false := by
  refine ⟨rfl, ?_⟩
  intro fs dr s3 h
  cases s3 with
  | ok => simp [upload_file] at h
  | clientError =>
    unfold handle_file
    split
    · rfl
    · split
      · rfl
      · rfl
  | otherError =>
    unfold handle_file
    split
    · rfl
    · split
      · rfl
      · rfl

/-- Claim C5: `handle_file` rejects with the too-large reply exactly when
the declared size strictly exceeds `4 * 1024 * 1024 * 1024` bytes, and on
that path no scratch file has been created (the check precedes the
`tempfile` block); the boundary value itself passes the check. -/
theorem size_limit_boundary (fs : ℤ) (dr : Bool) (s3 : S3Outcome) :
    ((handle_file fs dr s3).reply = ReplyKind.tooLarge ↔ fs > 4 * 1024 * 1024 * 1024) ∧
    ((handle_file fs dr s3).reply = ReplyKind.tooLarge →
      (handle_file fs dr s3).scratchCreated = false) := by
  by_cases hgt : fs > 4 * 1024 * 1024 * 1024
  · have h1 : handle_file fs dr s3 =
        { scratchCreated := false, scratchExists := false, savedRecord := false,
          reply := .tooLarge } := by
      unfold handle_file
      rw [if_pos hgt]
    rw [h1]
    exact ⟨⟨fun _ => hgt, fun _ => rfl⟩, fun _ => rfl⟩
  · have hr : (handle_file fs dr s3).reply ≠ ReplyKind.tooLarge := by
      unfold handle_file
      rw [if_neg hgt]
      split
      · decide
      · split <;> decide
    exact ⟨⟨fun hc => absurd hc hr, fun hc => absurd hc hgt⟩,
           fun hc => absurd hc hr⟩

theorem listGo_length_le (uid limit : ℤ) :
    ∀ (files acc : List FileData),
    ((listGo uid limit files acc).length : ℤ) ≤ max limit ((acc.length : ℤ) + 1) := by
  intro files
  induction files with
  | nil =>
    intro acc
    simp only [listGo]
    exact le_max_of_le_right (by omega)
  | cons f rest ih =>
    intro acc
    simp only [listGo]
    split
    · split
      · exact le_max_of_le_right (by simp)
      · next hbig =>
        have hlt : ((acc ++ [f]).length : ℤ) < limit := by
          push_neg at hbig
          exact hbig
        have hrec := ih (acc ++ [f])
        have hm : max limit (((acc ++ [f]).length : ℤ) + 1) = limit := by
          apply max_eq_left
          simp only [List.length_append, List.length_cons, List.length_nil] at hlt ⊢
          push_cast at hlt ⊢
          omega
        rw [hm] at hrec
        exact le_trans hrec (le_max_left _ _)
    · exact ih acc

theorem listGo_mem (uid limit : ℤ) :
    ∀ (files acc : List FileData) (f : FileData),
    f ∈ listGo uid limit files acc → f ∈ acc ∨ f.uploader_id = some uid := by
  intro files
  induction files with
  | nil =>
    intro acc f h
    exact Or.inl h
  | cons g rest ih =>
    intro acc f h
    simp only [listGo] at h
    split at h
    · next hg =>
      split at h
      · rcases List.mem_append.mp h with h1 | h1
        · exact Or.inl h1
        · rw [List.mem_singleton.mp h1]
          exact Or.inr hg
      · rcases ih (acc ++ [g]) f h with h1 | h1
        · rcases List.mem_append.mp h1 with h2 | h2
          · exact Or.inl h2
          · rw [List.mem_singleton.mp h2]
            exact Or.inr hg
        · exact Or.inr h1
    · exact ih acc f h

/-- Claim C6 (amended): `list_user_files` returns at most
`max limit 1` records — `limit` is a hard cap for `limit ≥ 1`, but for
`limit ≤ 0` the loop appends the first matching record before testing the
cap, so one record can still be returned — and every returned record
belongs to the requested uploader. -/
theorem list_user_files_cap_and_owner (files : List FileData) (uid limit : ℤ) :
    ((list_user_files files uid limit).length : ℤ) ≤ max limit 1 ∧
    ∀ f ∈ list_user_files files uid limit, f.uploader_id = some uid := by
  constructor
  · have h := listGo_length_le uid limit files []
    simpa [list_user_files] using h
  · intro f hf
    rcases listGo_mem uid limit files [] f hf with h | h
    · simp at h
    · exact h

/-- Claim C6 as stated is false at `limit = 0`: with one stored record
of the requested uploader, `list_user_files` returns 1 record, more than
the limit of 0, because the loop appends before it checks
`len(user_files) >= limit`. -/
theorem list_user_files_limit_zero_counterexample :
    (list_user_files [{ file_id := "a", uploader_id := some 1 }] 1 0).length = 1 ∧
    ¬(((list_user_files [{ file_id := "a", uploader_id := some 1 }] 1 0).length : ℤ) ≤ 0) := by
  decide

/-- Claim C9: when the S3 client reports a generation failure
(`ClientError`), `generate_presigned_url` returns `None` instead of
raising, and whenever the 24h presigned URL could not be produced,
`get_mx_player_url` returns `None` instead of raising. -/
theorem presigned_and_player_none_on_failure :
    (∀ (w : WasabiStorageModel) (key : String) (expiry : ℕ),
      w.s3_generate key expiry = .error () →
        generate_presigned_url w key expiry = none) ∧
    (∀ (w : WasabiStorageModel) (key name : String),
      generate_presigned_url w key 86400 = none →
        get_mx_player_url w key name = none) := by
  constructor
  · intro w key expiry h
    simp [generate_presigned_url, h]
  · intro w key name h
    simp [get_mx_player_url, h]

theorem sizeLoopAux_snd_le :
    ∀ (fuel : ℕ) (size : ℚ) (i : ℕ), i ≤ 4 → (sizeLoopAux fuel size i).2 ≤ 4 := by
  intro fuel
  induction fuel with
  | zero =>
    intro size i h
    simpa [sizeLoopAux] using h
  | succ m ih =>
    intro size i h
    simp only [sizeLoopAux]
    split
    · next hc => exact ih _ _ (by omega)
    · simpa using h

/-- Claim C10: the size formatter (a total function here, so it
terminates on every input) returns `"0B"` for 0, and for every
nonnegative input the unit it appends is one of B, KB, MB, GB, TB — the
loop index never passes TB because of the `i < len(size_names) - 1`
guard. -/
theorem format_size_unit_bounded (n : ℤ) (h : 0 ≤ n) :
    format_file_size 0 = "0B" ∧
    sizeUnit n ∈ size_names ∧
    format_file_size n =
      (if n = 0 then "0B" else pyFormat1f (sizeLoop (n : ℚ) 0).1 ++ sizeUnit n) := by
  refine ⟨rfl, ?_, rfl⟩
  have h4 : (sizeLoop (n : ℚ) 0).2 ≤ 4 := sizeLoopAux_snd_le _ _ _ (by omega)
  unfold sizeUnit
  set k := (sizeLoop (n : ℚ) 0).2 with hk
  interval_cases k <;> decide

/-- Witness for C10 at `n = 5000`. -/
theorem format_size_unit_bounded_witness :
    format_file_size 0 = "0B" ∧
    sizeUnit 5000 ∈ size_names ∧
    format_file_size 5000 =
      (if (5000 : ℤ) = 0 then "0B"
       else pyFormat1f (sizeLoop ((5000 : ℤ) : ℚ) 0).1 ++ sizeUnit 5000) :=
  format_size_unit_bounded 5000 (by norm_num)
